import Mathlib

/-!
Verification of the openafe host-side driver (`openafe.py`) against its
natural-language specification.

Strings are modelled as lists of character codes (`List Nat`); the payloads
and frames handled by the driver are ASCII, for which Python's `str`
indexing, slicing and `ord` coincide with operations on the code list, and
`encode("utf-8")` is the identity on codes below 128.
-/

/-- Python slice `s[:-k]`: drop the last `k` characters (whole-string clamp for
short inputs, as in Python). -/
def pyDropLast (k : Nat) (l : List Nat) : List Nat := l.take (l.length - k)

/-- Python slice `s[-k:]`: the last `k` characters (whole string when shorter). -/
def pyLastN (k : Nat) (l : List Nat) : List Nat := l.drop (l.length - k)

/-- `_calculateChecksumOfString` (openafe.py:103): XOR-fold of the character
codes, starting from 0. -/
def calculateChecksumOfString (s : List Nat) : Nat :=
  s.foldl (fun checksum c => checksum ^^^ c) 0

/-- Loop body of `_getChecksumIntegerFromString` (openafe.py:120): Python
integers are modelled as `Int`; `x << n` is `x * 2 ^ n` and raises
`ValueError` for a negative shift count, which happens from the third
character on (`index` becomes `-1`). -/
def getChecksumGo : List Nat → Int → Int → Except String Int
  | [], _, integerChecksum => .ok integerChecksum
  | c :: rest, index, integerChecksum =>
    let nibble : Int := if c < 65 then (c : Int) - 48 else (c : Int) - 55
    if index * 4 < 0 then .error "ValueError: negative shift count"
    else getChecksumGo rest (index - 1)
      (Int.lor integerChecksum (nibble * 2 ^ (index * 4).toNat))

/-- `_getChecksumIntegerFromString` (openafe.py:120): `index` starts at 1 and
decreases; each character with code below `0x41` contributes `ord - 0x30`,
any other character contributes `ord - 0x37`. -/
def getChecksumIntegerFromString (checksumString : List Nat) : Except String Int :=
  getChecksumGo checksumString 1 0

/-- Uppercase hexadecimal digit character code, as used by `format(_, "02X")`. -/
def hexUpperDigit (d : Nat) : Nat := if d < 10 then 48 + d else 55 + d

/-- Big-endian uppercase hex digits of `n` (empty for 0), with structural fuel
so the definition computes in the kernel. -/
def hexDigitsRevFuel : Nat → Nat → List Nat
  | 0, _ => []
  | fuel + 1, n => if n = 0 then [] else hexUpperDigit (n % 16) :: hexDigitsRevFuel fuel (n / 16)

/-- Python `format(n, "02X")` (openafe.py:156): uppercase hexadecimal,
zero-padded on the left to at least two characters. -/
def format02X (n : Nat) : List Nat :=
  let digits := (hexDigitsRevFuel (n + 1) n).reverse
  List.replicate (2 - digits.length) 48 ++ digits

/-- Frame construction in `sendCommandToMCU` (openafe.py:154-159):
`fullCommand = "$" + command + "*" + checksumString`; these are exactly the
bytes written to the serial port (`encode("utf-8")` is the identity on the
ASCII commands built by this driver). No line terminator is appended. -/
def fullCommand (command : List Nat) : List Nat :=
  [36] ++ command ++ [42] ++ format02X (calculateChecksumOfString command)

/-- Lowercase hexadecimal digit character code, used by `\xNN` escapes in the
Python `bytes` repr. -/
def hexLowerDigit (d : Nat) : Nat := if d < 10 then 48 + d else 87 + d

/-- One byte of CPython's `bytes` repr body, given the chosen quote character:
the quote and backslash are backslash-escaped, tab, newline and carriage
return print as `\t`, `\n`, `\r`, other printable bytes print as themselves,
and everything else prints as `\xNN` with lowercase hex digits. -/
def escByte (quote b : Nat) : List Nat :=
  if b = 92 ∨ b = quote then [92, b]
  else if b = 9 then [92, 116]
  else if b = 10 then [92, 110]
  else if b = 13 then [92, 114]
  else if b < 32 ∨ 127 ≤ b then [92, 120, hexLowerDigit (b / 16 % 16), hexLowerDigit (b % 16)]
  else [b]

/-- CPython's quote selection for `bytes` repr: a double quote is used exactly
when the content contains a single quote but no double quote. -/
def chooseQuote (l : List Nat) : Nat := if 39 ∈ l ∧ 34 ∉ l then 34 else 39

/-- Escape every byte of the repr body. -/
def escapeAll (quote : Nat) : List Nat → List Nat
  | [] => []
  | b :: rest => escByte quote b ++ escapeAll quote rest

/-- Python `str(bytes_object)` (the repr applied by `str(self.ser.readline())`
at openafe.py:48): `b`, an opening quote, the escaped body, a closing quote. -/
def pyStrOfBytes (bs : List Nat) : List Nat :=
  let quote := chooseQuote bs
  [98, quote] ++ escapeAll quote bs ++ [quote]

/-- `waitForMessage` (openafe.py:38-66) applied to the raw bytes returned by
`self.ser.readline()`: the fixed-offset slicing operates on the Python string
representation of those bytes; the checksum of `messageReceived[1:][:-3]` is
compared with the decoded trailing two characters, and on mismatch the
method raises. -/
def waitForMessage (raw : List Nat) : Except String (List Nat) :=
  let rawMessage := pyStrOfBytes raw
  let messageReceived := pyDropLast 3 (rawMessage.drop 2)
  let checksum := pyLastN 2 messageReceived
  let calculatedChecksum := calculateChecksumOfString (pyDropLast 3 (messageReceived.drop 1))
  match getChecksumIntegerFromString checksum with
  | .error e => .error e
  | .ok checksumInMessage =>
    if (calculatedChecksum : Int) - checksumInMessage = 0 then
      .ok (pyDropLast 3 (messageReceived.drop 1))
    else .error "Message from the MCU got corrupted."

/-- Decoding an inbound frame: the transport delivers the frame as a
newline-terminated line (`readline` returns the bytes up to and including
`\n`), and `waitForMessage` does the validation and extraction. -/
def decodeFrame (frame : List Nat) : Except String (List Nat) :=
  waitForMessage (frame ++ [10])

/-- The payload `"MSG,END"`. -/
def msgEND : List Nat := [77, 83, 71, 44, 69, 78, 68]

/-- The payload `"MSG,RDY"`. -/
def msgRDY : List Nat := [77, 83, 71, 44, 82, 68, 89]

/-- The string `"ERR"`. -/
def strERR : List Nat := [69, 82, 82]

/-- A Python value that is either a string or an integer, as needed to model
the driver's comparisons of a received message with `-1`. -/
inductive PyVal where
  | str (s : List Nat)
  | int (z : Int)
deriving DecidableEq

/-- Python `==` between the modelled values: values of different types are
never equal. -/
def pyEq : PyVal → PyVal → Bool
  | .str a, .str b => a = b
  | .int a, .int b => a = b
  | _, _ => false

/-- `isValidMessage` (openafe.py:69-83): returns `True` exactly when the
message equals `-1`. -/
def isValidMessage (message : PyVal) : Bool :=
  pyEq message (.int (-1))

/-- `isErrorMessage` (openafe.py:86-100): the code compares `message[:-4]`
(all but the last four characters) with `"ERR"`, despite the docstring
describing a prefix check. -/
def isErrorMessage (message : List Nat) : Bool :=
  pyDropLast 4 message = strERR

/-- A callback slot as seen by the guards `if cb and callable(cb)`: whether
the stored object is truthy, and whether it is callable. `None` is the
falsy non-callable slot. -/
structure CbSlot where
  truthy : Bool
  callable : Bool
deriving DecidableEq

/-- A recorded callback invocation. -/
inductive CbCall where
  | onPoint (voltage current : ℚ)
  | onEnd
deriving DecidableEq

/-- How a run of the receive loop ends: `finished` after `"MSG,END"`,
`raised` when an exception propagates, `pending` when the modelled message
list is exhausted while the real loop would still be blocking on the next
frame. -/
inductive RxOutcome where
  | finished
  | raised (msg : String)
  | pending
deriving DecidableEq

/-- `_onVoltammetryPoint` (openafe.py:315-327): invokes the callback only
when the slot holds a truthy callable object. -/
def onVoltammetryPoint (cb : CbSlot) (voltage current : ℚ) : List CbCall :=
  if cb.truthy && cb.callable then [.onPoint voltage current] else []

/-- `_onVoltammetryEnd` (openafe.py:330-338): invokes the callback only when
the slot holds a truthy callable object. -/
def onVoltammetryEnd (cb : CbSlot) : List CbCall :=
  if cb.truthy && cb.callable then [.onEnd] else []

/-- Python `str.split` with a one-character separator, accumulator form. -/
def pySplitGo (sep : Nat) (acc : List Nat) : List Nat → List (List Nat)
  | [] => [acc.reverse]
  | c :: rest =>
    if c = sep then acc.reverse :: pySplitGo sep [] rest
    else pySplitGo sep (c :: acc) rest

/-- Python `s.split(sep)` for a one-character separator: splitting at every
occurrence, `"".split(",") = [""]`. -/
def pySplit (sep : Nat) (s : List Nat) : List (List Nat) := pySplitGo sep [] s

/-- Digit test for character codes. -/
def isDigitCode (c : Nat) : Bool := decide (48 ≤ c) && decide (c ≤ 57)

/-- Decimal value of a digit string. -/
def digitsToNat (l : List Nat) : Nat := l.foldl (fun a c => a * 10 + (c - 48)) 0

/-- Modelled from the spec: the unsigned part of Python's builtin `float`
string parsing, for plain decimal forms `digits`, `digits.`, `.digits` and
`digits.digits`. Exponent, infinity, nan and underscore forms are not
modelled; no payload in this development uses them. Exact values are
rationals; every decimal the claims mention is dyadic, where `float` is
exact. -/
def pyFloatUnsigned (s : List Nat) : Option ℚ :=
  let ip := s.takeWhile isDigitCode
  let r1 := s.drop ip.length
  match r1 with
  | [] => if ip.isEmpty then none else some (mkRat (digitsToNat ip) 1)
  | 46 :: r2 =>
    let fp := r2.takeWhile isDigitCode
    let r3 := r2.drop fp.length
    if ip.isEmpty && fp.isEmpty then none
    else if r3.isEmpty then
      some (mkRat (digitsToNat ip * 10 ^ fp.length + digitsToNat fp) (10 ^ fp.length))
    else none
  | _ => none

/-- Modelled from the spec: Python `float(s)` on the decimal forms used by
the wire protocol, with an optional sign and surrounding spaces;
`ValueError` is `none`. -/
def pyFloat (s : List Nat) : Option ℚ :=
  let t := ((s.dropWhile (· = 32)).reverse.dropWhile (· = 32)).reverse
  match t with
  | 43 :: r => pyFloatUnsigned r
  | 45 :: r => (pyFloatUnsigned r).map (fun q => -q)
  | _ => pyFloatUnsigned t

/-- `receiveVoltammetryPoints` (openafe.py:290-312) over the sequence of
messages that successive successful `waitForMessage` calls return (the
claims all concern checksum-valid frames). Each iteration: the `"MSG,END"`
comparison ends the loop after notifying `_onVoltammetryEnd`; the
`messageReceived[:-4] == "ERR"` comparison raises; otherwise the branch
`messageReceived != -1` is always taken (a string never equals `-1`),
`point = messageReceived[4:]` is split on commas, `float` is applied to
fields 0 and 1 (raising `ValueError` on a malformed field and `IndexError`
when fewer than two fields exist), and `_onVoltammetryPoint` is notified. -/
def receiveVoltammetryPoints (cbP cbE : CbSlot) : List (List Nat) → List CbCall × RxOutcome
  | [] => ([], .pending)
  | messageReceived :: rest =>
    if messageReceived = msgEND then (onVoltammetryEnd cbE, .finished)
    else if pyDropLast 4 messageReceived = strERR then
      ([], .raised "An error ocurred during the voltammetry.")
    else
      let point := messageReceived.drop 4
      let pointObjs := pySplit 44 point
      match pointObjs.head? with
      | none => ([], .raised "IndexError")
      | some f0 =>
        match pyFloat f0 with
        | none => ([], .raised "ValueError")
        | some voltage =>
          match pointObjs[1]? with
          | none => ([], .raised "IndexError")
          | some f1 =>
            match pyFloat f1 with
            | none => ([], .raised "ValueError")
            | some current =>
              let r := receiveVoltammetryPoints cbP cbE rest
              (onVoltammetryPoint cbP voltage current ++ r.1, r.2)

/-- The two numeric fields a streaming message yields: `message[4:]` split on
commas, fields 0 and 1 parsed by `float`. -/
def parsePoint (messageReceived : List Nat) : Option (ℚ × ℚ) :=
  match pySplit 44 (messageReceived.drop 4) with
  | f0 :: f1 :: _ =>
    match pyFloat f0, pyFloat f1 with
    | some v, some c => some (v, c)
    | _, _ => none
  | _ => none

/-- A provided, callable callback slot. -/
def cbOn : CbSlot := ⟨true, true⟩

/-- The outcome of the transport interactions `OpenAFE.__init__` performs:
opening the serial port can fail, the first `readline` can fail, or it
returns a raw line. -/
inductive InitRead where
  | openFail
  | readFail
  | line (raw : List Nat)

/-- `OpenAFE.__init__` (openafe.py:21-35): a `SerialException` from opening
the port raises the connection error; any exception out of
`waitForMessage` (read failure or corrupted frame) is re-raised wrapped as
the generic initiation error; a decoded message is compared with
`"MSG,RDY"` and checked with `isValidMessage`, and construction raises
`"OpenAFE is not ready!"` (also wrapped) unless the comparison succeeds. -/
def openAFEInit (firstRead : InitRead) : Except String Unit :=
  match firstRead with
  | .openFail =>
    .error "Failed to stablish connection with the OpenAFE device. CHECK IF IT IS CONNECTED!"
  | .readFail => .error "Could not initiate communication with the OpenAFE device."
  | .line raw =>
    match waitForMessage raw with
    | .error _ => .error "Could not initiate communication with the OpenAFE device."
    | .ok messageReceived =>
      if !pyEq (.str messageReceived) (.str msgRDY) || isValidMessage (.str messageReceived) then
        .error "Could not initiate communication with the OpenAFE device."
      else .ok ()

/-! ### XOR-fold algebra -/

theorem checksum_foldl_init (l : List Nat) (a : Nat) :
    l.foldl (fun checksum c => checksum ^^^ c) a = a ^^^ calculateChecksumOfString l := by
  induction l generalizing a with
  | nil => simp [calculateChecksumOfString]
  | cons x xs ih =>
    simp only [calculateChecksumOfString, List.foldl_cons] at *
    rw [ih (a ^^^ x), ih (0 ^^^ x), Nat.zero_xor, Nat.xor_assoc]

theorem checksum_cons (x : Nat) (xs : List Nat) :
    calculateChecksumOfString (x :: xs) = x ^^^ calculateChecksumOfString xs := by
  show List.foldl (fun checksum c => checksum ^^^ c) (0 ^^^ x) xs = _
  rw [checksum_foldl_init, Nat.zero_xor]

theorem checksum_append (l1 l2 : List Nat) :
    calculateChecksumOfString (l1 ++ l2) =
      calculateChecksumOfString l1 ^^^ calculateChecksumOfString l2 := by
  induction l1 with
  | nil => simp [calculateChecksumOfString]
  | cons x xs ih => simp only [List.cons_append, checksum_cons, ih, Nat.xor_assoc]

theorem xor_left_comm (a b c : Nat) : a ^^^ (b ^^^ c) = b ^^^ (a ^^^ c) := by
  rw [← Nat.xor_assoc, Nat.xor_comm a b, Nat.xor_assoc]

theorem xor_self_cancel (a b : Nat) : a ^^^ (a ^^^ b) = b := by
  rw [← Nat.xor_assoc, Nat.xor_self, Nat.zero_xor]

theorem xor_cancel_iff (a x : Nat) : a ^^^ x = a ↔ x = 0 := by
  constructor
  · intro h
    have h2 := congrArg (fun t => a ^^^ t) h
    simpa [← Nat.xor_assoc, Nat.xor_self, Nat.zero_xor] using h2
  · intro h; simp [h]

/-- The checksum contribution of one escaped byte. -/
def contrib (quote b : Nat) : Nat := calculateChecksumOfString (escByte quote b)

theorem checksum_escapeAll (quote : Nat) (l : List Nat) :
    calculateChecksumOfString (escapeAll quote l) =
      calculateChecksumOfString (l.map (contrib quote)) := by
  induction l with
  | nil => rfl
  | cons x xs ih =>
    simp only [escapeAll, List.map_cons, checksum_append, checksum_cons, ih, contrib]

theorem escapeAll_append (quote : Nat) (l1 l2 : List Nat) :
    escapeAll quote (l1 ++ l2) = escapeAll quote l1 ++ escapeAll quote l2 := by
  induction l1 with
  | nil => rfl
  | cons x xs ih =>
    simp only [escapeAll, List.cons_append, List.append_eq, ih, List.append_assoc]

theorem checksum_map_set (f : Nat → Nat) (l : List Nat) (i : Nat) (v : Nat)
    (hi : i < l.length) :
    calculateChecksumOfString ((l.set i v).map f) =
      calculateChecksumOfString (l.map f) ^^^ f l[i] ^^^ f v := by
  induction l generalizing i with
  | nil => simp at hi
  | cons x xs ih =>
    cases i with
    | zero =>
      simp only [List.set_cons_zero, List.map_cons, checksum_cons, List.getElem_cons_zero]
      simp [Nat.xor_assoc, Nat.xor_comm, xor_left_comm, xor_self_cancel, Nat.xor_self,
        Nat.zero_xor, Nat.xor_zero]
    | succ j =>
      have hj : j < xs.length := by simpa using hi
      simp only [List.set_cons_succ, List.map_cons, checksum_cons, List.getElem_cons_succ]
      rw [ih j hj]
      simp [Nat.xor_assoc, Nat.xor_comm, xor_left_comm, xor_self_cancel, Nat.xor_self,
        Nat.zero_xor, Nat.xor_zero]

theorem checksum_map_xor (f g : Nat → Nat) (l : List Nat) :
    calculateChecksumOfString (l.map f) ^^^ calculateChecksumOfString (l.map g) =
      calculateChecksumOfString (l.map fun x => f x ^^^ g x) := by
  induction l with
  | nil => simp [calculateChecksumOfString]
  | cons x xs ih =>
    simp only [List.map_cons, checksum_cons]
    rw [← ih]
    simp [Nat.xor_assoc, Nat.xor_comm, xor_left_comm, xor_self_cancel, Nat.xor_self,
      Nat.zero_xor, Nat.xor_zero]

/-! ### Byte-level facts established by enumeration -/

instance {e a : Type} [DecidableEq e] [DecidableEq a] : DecidableEq (Except e a) := fun x y =>
  match x, y with
  | .ok v, .ok w => if h : v = w then .isTrue (by rw [h]) else .isFalse (by simp [h])
  | .error v, .error w => if h : v = w then .isTrue (by rw [h]) else .isFalse (by simp [h])
  | .ok _, .error _ => .isFalse (by simp)
  | .error _, .ok _ => .isFalse (by simp)

set_option maxHeartbeats 1000000 in
set_option maxRecDepth 10000 in
theorem hexRoundtripFin : ∀ n : Fin 256,
    getChecksumIntegerFromString (format02X n.val) = .ok (n.val : Int) := by decide

set_option maxHeartbeats 1000000 in
set_option maxRecDepth 10000 in
theorem contribFlipFin : ∀ b : Fin 256, ∀ k : Fin 8,
    contrib 39 b.val ≠ contrib 39 (b.val ^^^ 2 ^ k.val) ∧
    contrib 34 b.val ≠ contrib 34 (b.val ^^^ 2 ^ k.val) := by decide

set_option maxRecDepth 10000 in
theorem contribDeltaFin : ∀ b : Fin 256,
    contrib 39 b.val ^^^ contrib 34 b.val =
      if b.val = 39 ∨ b.val = 34 then 92 else 0 := by decide

set_option maxRecDepth 10000 in
theorem contribQuoteBaseFacts : ∀ k : Fin 8,
    (contrib 39 39 ^^^ contrib 39 (39 ^^^ 2 ^ k.val) ≠ 0) ∧
    (contrib 39 39 ^^^ contrib 39 (39 ^^^ 2 ^ k.val) ≠ 92) ∧
    (contrib 34 39 ^^^ contrib 34 (39 ^^^ 2 ^ k.val) ≠ 0) ∧
    (contrib 34 39 ^^^ contrib 34 (39 ^^^ 2 ^ k.val) ≠ 92) ∧
    (contrib 39 34 ^^^ contrib 39 (34 ^^^ 2 ^ k.val) ≠ 0) ∧
    (contrib 39 34 ^^^ contrib 39 (34 ^^^ 2 ^ k.val) ≠ 92) ∧
    (contrib 34 34 ^^^ contrib 34 (34 ^^^ 2 ^ k.val) ≠ 0) ∧
    (contrib 34 34 ^^^ contrib 34 (34 ^^^ 2 ^ k.val) ≠ 92) := by decide

set_option maxRecDepth 10000 in
theorem format02X_eval : ∀ n : Fin 256,
    format02X n.val = [hexUpperDigit (n.val / 16), hexUpperDigit (n.val % 16)] := by decide

/-! ### Frame decomposition through the repr-based slicing -/

/-- A hexadecimal digit character code (the checksum field of a frame). -/
def hexDigitCode (c : Nat) : Prop := (48 ≤ c ∧ c ≤ 57) ∨ (65 ≤ c ∧ c ≤ 70)

theorem hexDigitCode_bounds {c : Nat} (h : hexDigitCode c) : 48 ≤ c ∧ c ≤ 70 := by
  rcases h with ⟨h1, h2⟩ | ⟨h1, h2⟩ <;> omega

theorem escByte_plain (q b : Nat) (h32 : 32 ≤ b) (h127 : b < 127) (h92 : b ≠ 92)
    (hq : b ≠ q) : escByte q b = [b] := by
  unfold escByte
  rw [if_neg (by push_neg; exact ⟨h92, hq⟩), if_neg (by omega), if_neg (by omega),
    if_neg (by omega), if_neg (by push_neg; omega)]

theorem escByte_newline (q : Nat) (hq : q = 39 ∨ q = 34) : escByte q 10 = [92, 110] := by
  unfold escByte
  rw [if_neg (by rcases hq with h | h <;> subst h <;> simp), if_neg (by omega), if_pos rfl]

theorem chooseQuote_or (l : List Nat) : chooseQuote l = 39 ∨ chooseQuote l = 34 := by
  unfold chooseQuote; split <;> simp

theorem pyDropLast_append (A B : List Nat) (k : Nat) (h : B.length = k) :
    pyDropLast k (A ++ B) = A := by
  unfold pyDropLast
  rw [List.length_append, h, Nat.add_sub_cancel, List.take_left]

theorem pyLastN_append (A B : List Nat) (k : Nat) (h : B.length = k) :
    pyLastN k (A ++ B) = B := by
  unfold pyLastN
  rw [List.length_append, h, Nat.add_sub_cancel, List.drop_left]

theorem chooseQuote_frame (p : List Nat) (c1 c2 : Nat) (hc1 : hexDigitCode c1)
    (hc2 : hexDigitCode c2) :
    chooseQuote (([36] ++ p ++ [42, c1, c2]) ++ [10]) = chooseQuote p := by
  have hb1 := hexDigitCode_bounds hc1
  have hb2 := hexDigitCode_bounds hc2
  have h39 : (39 ∈ ([36] ++ p ++ [42, c1, c2]) ++ [10]) ↔ 39 ∈ p := by
    simp [List.mem_append, List.mem_cons, show (39 : Nat) ≠ c1 by omega,
      show (39 : Nat) ≠ c2 by omega]
  have h34 : (34 ∈ ([36] ++ p ++ [42, c1, c2]) ++ [10]) ↔ 34 ∈ p := by
    simp [List.mem_append, List.mem_cons, show (34 : Nat) ≠ c1 by omega,
      show (34 : Nat) ≠ c2 by omega]
  unfold chooseQuote
  simp only [h39, h34]

/-- The value `_getChecksumIntegerFromString` computes on a two-character
string. -/
def pyNibble (c : Nat) : Int := if c < 65 then (c : Int) - 48 else (c : Int) - 55

/-- The integer decoded from a two-character checksum field. -/
def checksumPairValue (c1 c2 : Nat) : Int :=
  Int.lor (Int.lor 0 (pyNibble c1 * 16)) (pyNibble c2)

theorem getChecksum_two (c1 c2 : Nat) :
    getChecksumIntegerFromString [c1, c2] = .ok (checksumPairValue c1 c2) := by
  unfold getChecksumIntegerFromString checksumPairValue pyNibble
  simp [getChecksumGo]

theorem waitForMessage_frame (p : List Nat) (c1 c2 : Nat)
    (hc1 : hexDigitCode c1) (hc2 : hexDigitCode c2) :
    decodeFrame ([36] ++ p ++ [42, c1, c2]) =
      if (calculateChecksumOfString (escapeAll (chooseQuote p) p) : Int) -
          checksumPairValue c1 c2 = 0
      then .ok (escapeAll (chooseQuote p) p)
      else .error "Message from the MCU got corrupted." := by
  have hb1 := hexDigitCode_bounds hc1
  have hb2 := hexDigitCode_bounds hc2
  have hq := chooseQuote_or p
  have hqne : ∀ b : Nat, 32 ≤ b → b < 127 → b ≠ 92 → b ≠ 39 → b ≠ 34 →
      escByte (chooseQuote p) b = [b] := by
    intro b h1 h2 h3 h4 h5
    exact escByte_plain _ b h1 h2 h3 (by rcases hq with h | h <;> omega)
  have h36 : escByte (chooseQuote p) 36 = [36] := hqne 36 (by omega) (by omega) (by omega) (by omega) (by omega)
  have h42 : escByte (chooseQuote p) 42 = [42] := hqne 42 (by omega) (by omega) (by omega) (by omega) (by omega)
  have hC1 : escByte (chooseQuote p) c1 = [c1] :=
    hqne c1 (by omega) (by omega) (by omega) (by omega) (by omega)
  have hC2 : escByte (chooseQuote p) c2 = [c2] :=
    hqne c2 (by omega) (by omega) (by omega) (by omega) (by omega)
  have h10 := escByte_newline (chooseQuote p) hq
  have hesc : escapeAll (chooseQuote p) (([36] ++ p ++ [42, c1, c2]) ++ [10]) =
      ([36] ++ escapeAll (chooseQuote p) p ++ [42, c1, c2]) ++ [92, 110] := by
    rw [escapeAll_append, escapeAll_append]
    simp only [escapeAll, h36, h42, hC1, hC2, h10]
    simp [List.append_assoc]
  simp only [decodeFrame, waitForMessage, pyStrOfBytes]
  rw [chooseQuote_frame p c1 c2 hc1 hc2, hesc]
  have hdrop2 : ∀ X : List Nat, ([98, chooseQuote p] ++ X).drop 2 = X := by
    intro X; rfl
  have hstep1 :
      ([98, chooseQuote p] ++
        (([36] ++ escapeAll (chooseQuote p) p ++ [42, c1, c2]) ++ [92, 110]) ++
        [chooseQuote p]).drop 2 =
      ([36] ++ escapeAll (chooseQuote p) p ++ [42, c1, c2]) ++ ([92, 110] ++ [chooseQuote p]) := by
    simp [List.append_assoc]
  rw [hstep1]
  rw [pyDropLast_append _ ([92, 110] ++ [chooseQuote p]) 3 (by simp)]
  have hcs : pyLastN 2 ([36] ++ escapeAll (chooseQuote p) p ++ [42, c1, c2]) = [c1, c2] := by
    have : [36] ++ escapeAll (chooseQuote p) p ++ [42, c1, c2] =
        (([36] ++ escapeAll (chooseQuote p) p ++ [42]) ++ [c1, c2]) := by
      simp [List.append_assoc]
    rw [this, pyLastN_append _ _ 2 (by simp)]
  rw [hcs]
  have hdrop1 : ([36] ++ escapeAll (chooseQuote p) p ++ [42, c1, c2]).drop 1 =
      escapeAll (chooseQuote p) p ++ [42, c1, c2] := by
    simp
  rw [hdrop1, pyDropLast_append _ [42, c1, c2] 3 (by simp), getChecksum_two]

/-! ### Single-bit-flip detection -/

theorem xor_invol (a m : Nat) : a ^^^ m ^^^ m = a := by
  rw [Nat.xor_assoc, Nat.xor_self, Nat.xor_zero]

theorem mem_set_iff_of_ne (l : List Nat) (i : Nat) (v x : Nat) (hi : i < l.length)
    (hxv : x ≠ v) (hxb : x ≠ l[i]) : x ∈ l.set i v ↔ x ∈ l := by
  induction l generalizing i with
  | nil => simp at hi
  | cons a t ih =>
    cases i with
    | zero =>
      simp only [List.getElem_cons_zero] at hxb
      simp [List.set_cons_zero, List.mem_cons, hxv, hxb]
    | succ j =>
      have hj : j < t.length := by simpa using hi
      simp only [List.getElem_cons_succ] at hxb
      simp [List.set_cons_succ, List.mem_cons, ih j hj hxb]

theorem chooseQuote_set_of_ne (p : List Nat) (i : Nat) (v : Nat) (hi : i < p.length)
    (hb : p[i] ≠ 39 ∧ p[i] ≠ 34) (hv : v ≠ 39 ∧ v ≠ 34) :
    chooseQuote (p.set i v) = chooseQuote p := by
  unfold chooseQuote
  simp only [mem_set_iff_of_ne p i v 39 hi (Ne.symm hv.1) (Ne.symm hb.1),
    mem_set_iff_of_ne p i v 34 hi (Ne.symm hv.2) (Ne.symm hb.2)]

theorem checksum_quote_delta (l : List Nat) :
    calculateChecksumOfString (l.map fun x => if x = 39 ∨ x = 34 then 92 else 0) = 0 ∨
    calculateChecksumOfString (l.map fun x => if x = 39 ∨ x = 34 then 92 else 0) = 92 := by
  induction l with
  | nil => left; rfl
  | cons x xs ih =>
    simp only [List.map_cons, checksum_cons]
    by_cases hx : x = 39 ∨ x = 34
    · rw [if_pos hx]
      rcases ih with h | h <;> rw [h] <;> simp
    · rw [if_neg hx, Nat.zero_xor]
      exact ih

theorem flip_checksum_ne (p : List Nat) (i k : Nat) (hp : ∀ b ∈ p, b < 256)
    (hi : i < p.length) (hk : k < 8) :
    calculateChecksumOfString
        (escapeAll (chooseQuote (p.set i (p[i] ^^^ 2 ^ k))) (p.set i (p[i] ^^^ 2 ^ k))) ≠
      calculateChecksumOfString (escapeAll (chooseQuote p) p) := by
  have hb : p[i] < 256 := hp _ (List.getElem_mem hi)
  have hb' : p[i] ^^^ 2 ^ k < 256 := by
    have h2 : 2 ^ k ≤ 2 ^ 7 := Nat.pow_le_pow_right (by omega) (by omega)
    have h3 : p[i] ^^^ 2 ^ k < 2 ^ 8 := Nat.xor_lt_two_pow (by omega) (by omega)
    omega
  set q2 := chooseQuote (p.set i (p[i] ^^^ 2 ^ k)) with hq2def
  set q := chooseQuote p with hqdef
  have hq2or : q2 = 39 ∨ q2 = 34 := hq2def ▸ chooseQuote_or _
  have hqor : q = 39 ∨ q = 34 := hqdef ▸ chooseQuote_or _
  intro heq
  rw [checksum_escapeAll, checksum_escapeAll, checksum_map_set (contrib q2) p i _ hi] at heq
  have hD : contrib q2 p[i] ^^^ contrib q2 (p[i] ^^^ 2 ^ k) =
      calculateChecksumOfString (p.map (contrib q2)) ^^^
        calculateChecksumOfString (p.map (contrib q)) := by
    rw [Nat.xor_assoc] at heq
    rw [← heq, xor_self_cancel]
  by_cases hquote : q2 = q
  · rw [hquote, Nat.xor_self, Nat.xor_eq_zero] at hD
    rcases hqor with hqa | hqa <;> rw [hqa] at hD
    · exact (contribFlipFin ⟨p[i], hb⟩ ⟨k, hk⟩).1 hD
    · exact (contribFlipFin ⟨p[i], hb⟩ ⟨k, hk⟩).2 hD
  · have hbq : p[i] = 39 ∨ p[i] = 34 ∨ p[i] ^^^ 2 ^ k = 39 ∨ p[i] ^^^ 2 ^ k = 34 := by
      by_contra hcon
      push_neg at hcon
      refine hquote ?_
      rw [hq2def, hqdef]
      exact chooseQuote_set_of_ne p i _ hi ⟨hcon.1, hcon.2.1⟩ ⟨hcon.2.2.1, hcon.2.2.2⟩
    have hDval :
        calculateChecksumOfString (p.map (contrib q2)) ^^^
          calculateChecksumOfString (p.map (contrib q)) = 0 ∨
        calculateChecksumOfString (p.map (contrib q2)) ^^^
          calculateChecksumOfString (p.map (contrib q)) = 92 := by
      have hw : ∀ x ∈ p, contrib q2 x ^^^ contrib q x =
          if x = 39 ∨ x = 34 then 92 else 0 := by
        intro x hx
        have hx256 : x < 256 := hp x hx
        have h1 := contribDeltaFin ⟨x, hx256⟩
        rcases hq2or with hqb | hqb <;> rcases hqor with hqa | hqa <;> rw [hqb, hqa]
        · exact absurd (hqb.trans hqa.symm) hquote
        · exact h1
        · rw [Nat.xor_comm]; exact h1
        · exact absurd (hqb.trans hqa.symm) hquote
      rw [checksum_map_xor, List.map_congr_left hw]
      exact checksum_quote_delta p
    have hfacts := contribQuoteBaseFacts ⟨k, hk⟩
    rcases hbq with h | h | h | h
    · rcases hq2or with hqb | hqb <;> rcases hDval with hv | hv <;>
        have hv2 := hD.trans hv <;> rw [h, hqb] at hv2
      · exact hfacts.1 hv2
      · exact hfacts.2.1 hv2
      · exact hfacts.2.2.1 hv2
      · exact hfacts.2.2.2.1 hv2
    · rcases hq2or with hqb | hqb <;> rcases hDval with hv | hv <;>
        have hv2 := hD.trans hv <;> rw [h, hqb] at hv2
      · exact hfacts.2.2.2.2.1 hv2
      · exact hfacts.2.2.2.2.2.1 hv2
      · exact hfacts.2.2.2.2.2.2.1 hv2
      · exact hfacts.2.2.2.2.2.2.2 hv2
    · have hbval : p[i] = 39 ^^^ 2 ^ k := by
        have h2 := congrArg (fun t => t ^^^ 2 ^ k) h
        simp only [xor_invol] at h2
        exact h2
      rcases hq2or with hqb | hqb <;> rcases hDval with hv | hv <;>
        have hv2 := hD.trans hv <;> rw [h, hbval] at hv2 <;>
        rw [Nat.xor_comm (contrib q2 (39 ^^^ 2 ^ k)) (contrib q2 39), hqb] at hv2
      · exact hfacts.1 hv2
      · exact hfacts.2.1 hv2
      · exact hfacts.2.2.1 hv2
      · exact hfacts.2.2.2.1 hv2
    · have hbval : p[i] = 34 ^^^ 2 ^ k := by
        have h2 := congrArg (fun t => t ^^^ 2 ^ k) h
        simp only [xor_invol] at h2
        exact h2
      rcases hq2or with hqb | hqb <;> rcases hDval with hv | hv <;>
        have hv2 := hD.trans hv <;> rw [h, hbval] at hv2 <;>
        rw [Nat.xor_comm (contrib q2 (34 ^^^ 2 ^ k)) (contrib q2 34), hqb] at hv2
      · exact hfacts.2.2.2.2.1 hv2
      · exact hfacts.2.2.2.2.2.1 hv2
      · exact hfacts.2.2.2.2.2.2.1 hv2
      · exact hfacts.2.2.2.2.2.2.2 hv2

/-- C6: for a frame `$<payload>*<c1c2>` (hex checksum field, payload bytes)
that decodes successfully, flipping any single bit of any payload byte makes
the decode fail with the checksum-mismatch error. -/
theorem c6_bit_flip_makes_decode_fail (p : List Nat) (c1 c2 : Nat) (i k : Nat)
    (m : List Nat) (hp : ∀ b ∈ p, b < 256) (hc1 : hexDigitCode c1) (hc2 : hexDigitCode c2)
    (hi : i < p.length) (hk : k < 8)
    (hok : decodeFrame ([36] ++ p ++ [42, c1, c2]) = .ok m) :
    decodeFrame ([36] ++ p.set i (p[i] ^^^ 2 ^ k) ++ [42, c1, c2]) =
      .error "Message from the MCU got corrupted." := by
  rw [waitForMessage_frame p c1 c2 hc1 hc2] at hok
  rw [waitForMessage_frame _ c1 c2 hc1 hc2]
  by_cases hcond : (calculateChecksumOfString (escapeAll (chooseQuote p) p) : Int) -
      checksumPairValue c1 c2 = 0
  · rw [if_neg]
    intro hcond'
    have hXX : (calculateChecksumOfString
        (escapeAll (chooseQuote (p.set i (p[i] ^^^ 2 ^ k))) (p.set i (p[i] ^^^ 2 ^ k))) : Int) =
        (calculateChecksumOfString (escapeAll (chooseQuote p) p) : Int) := by omega
    exact flip_checksum_ne p i k hp hi hk (by exact_mod_cast hXX)
  · rw [if_neg hcond] at hok
    exact absurd hok (by simp)

/-- Closed instance of `c6_bit_flip_makes_decode_fail`: the frame `$AB*03`
decodes to `AB`; flipping bit 0 of the first payload byte is rejected. -/
theorem c6_bit_flip_witness :
    decodeFrame ([36] ++ [65, 66].set 0 ([65, 66][0] ^^^ 2 ^ 0) ++ [42, 48, 51]) =
      .error "Message from the MCU got corrupted." :=
  c6_bit_flip_makes_decode_fail [65, 66] 48 51 0 0 [65, 66] (by decide)
    (Or.inl (by omega)) (Or.inl (by omega)) (by decide) (by decide) (by decide)

/-! ### Round-trip of the encoded frame -/

theorem checksum_lt_128 (p : List Nat) (h : ∀ b ∈ p, b < 128) :
    calculateChecksumOfString p < 128 := by
  induction p with
  | nil => simp [calculateChecksumOfString]
  | cons x xs ih =>
    rw [checksum_cons]
    have hx : x < 128 := h x (List.mem_cons_self x xs)
    have hxs : calculateChecksumOfString xs < 128 :=
      ih fun b hb => h b (List.mem_cons_of_mem x hb)
    have h7 : x ^^^ calculateChecksumOfString xs < 2 ^ 7 :=
      Nat.xor_lt_two_pow (by omega) (by omega)
    omega

theorem escapeAll_id (q : Nat) (p : List Nat)
    (h : ∀ b ∈ p, 32 ≤ b ∧ b < 127 ∧ b ≠ 92 ∧ b ≠ q) : escapeAll q p = p := by
  induction p with
  | nil => rfl
  | cons x xs ih =>
    have hx := h x (List.mem_cons_self x xs)
    simp only [escapeAll, escByte_plain q x hx.1 hx.2.1 hx.2.2.1 hx.2.2.2,
      ih fun b hb => h b (List.mem_cons_of_mem x hb), List.singleton_append]

theorem hexDigitCode_hexUpperDigit (d : Nat) (hd : d < 16) :
    hexDigitCode (hexUpperDigit d) := by
  unfold hexUpperDigit hexDigitCode
  split_ifs <;> omega

/-- C1 (amended): for payloads of printable ASCII excluding `$`, `*` and the
backslash, and not containing both a single quote and a double quote,
decoding the encoded frame returns the payload. -/
theorem c1_frame_roundtrip (p : List Nat)
    (hp : ∀ b ∈ p, 32 ≤ b ∧ b ≤ 126 ∧ b ≠ 36 ∧ b ≠ 42 ∧ b ≠ 92)
    (hq : ¬(39 ∈ p ∧ 34 ∈ p)) :
    decodeFrame (fullCommand p) = .ok p := by
  have h128 : ∀ b ∈ p, b < 128 := fun b hb => by have := hp b hb; omega
  have hcs256 : calculateChecksumOfString p < 256 := by
    have := checksum_lt_128 p h128; omega
  have hfmt : format02X (calculateChecksumOfString p) =
      [hexUpperDigit (calculateChecksumOfString p / 16),
       hexUpperDigit (calculateChecksumOfString p % 16)] := format02X_eval ⟨_, hcs256⟩
  have hshape : fullCommand p = [36] ++ p ++
      [42, hexUpperDigit (calculateChecksumOfString p / 16),
       hexUpperDigit (calculateChecksumOfString p % 16)] := by
    unfold fullCommand
    rw [hfmt]
    simp [List.append_assoc]
  rw [hshape, waitForMessage_frame p _ _
    (hexDigitCode_hexUpperDigit _ (by omega)) (hexDigitCode_hexUpperDigit _ (by omega))]
  have hescid : escapeAll (chooseQuote p) p = p := by
    apply escapeAll_id
    intro b hb
    have hpb := hp b hb
    refine ⟨by omega, by omega, by omega, ?_⟩
    by_cases hC : 39 ∈ p ∧ 34 ∉ p
    · have hcq : chooseQuote p = 34 := by unfold chooseQuote; rw [if_pos hC]
      rw [hcq]; intro hb34; exact hC.2 (hb34 ▸ hb)
    · have hcq : chooseQuote p = 39 := by unfold chooseQuote; rw [if_neg hC]
      rw [hcq]; intro hb39
      have h39 : 39 ∈ p := hb39 ▸ hb
      have h34 : 34 ∈ p := by
        by_contra h34n; exact hC ⟨h39, h34n⟩
      exact hq ⟨h39, h34⟩
  rw [hescid]
  have hval : checksumPairValue (hexUpperDigit (calculateChecksumOfString p / 16))
      (hexUpperDigit (calculateChecksumOfString p % 16)) =
      (calculateChecksumOfString p : Int) := by
    have h1 : getChecksumIntegerFromString (format02X (calculateChecksumOfString p)) =
        .ok (calculateChecksumOfString p : Int) := hexRoundtripFin ⟨_, hcs256⟩
    rw [hfmt, getChecksum_two] at h1
    simpa using h1
  rw [hval, if_pos (by omega)]

/-- C1 fails as stated: the one-character payload `\` (0x5C, printable ASCII,
neither `$` nor `*`) and the payload consisting of a single quote followed by
a double quote do not round-trip: the repr escaping shifts the fixed slicing
offsets and the decode raises. -/
theorem c1_counterexample :
    decodeFrame (fullCommand [92]) ≠ .ok [92] ∧
    decodeFrame (fullCommand [39, 34]) ≠ .ok [39, 34] := by decide

/-- Closed instance of `c1_frame_roundtrip` at the payload `"CVW,50"`. -/
theorem c1_frame_roundtrip_witness :
    decodeFrame (fullCommand [67, 86, 87, 44, 53, 48]) = .ok [67, 86, 87, 44, 53, 48] :=
  c1_frame_roundtrip [67, 86, 87, 44, 53, 48] (by decide) (by decide)

/-- C4: for every byte, decoding the two-character string produced by
`format(b, "02X")` with `_getChecksumIntegerFromString` returns the byte. -/
theorem c4_checksum_roundtrip : ∀ b : Fin 256,
    getChecksumIntegerFromString (format02X b.val) = .ok (b.val : Int) :=
  hexRoundtripFin

/-- C5 fails as stated: `_getChecksumIntegerFromString` never signals a
malformed checksum on two-character input: the non-hex string `"GG"` yields
the value 272, and the lowercase string `"aa"` yields 682, not 170 (each
lowercase letter contributes `ord - 0x37` = 42..47, not 10..15). -/
theorem c5_counterexample :
    getChecksumIntegerFromString [71, 71] = .ok 272 ∧
    getChecksumIntegerFromString [97, 97] = .ok 682 ∧ (682 : Int) ≠ 170 := by decide

/-- C5 (amended): the decoder is total on strings of length two (any
characters, hex or not, each character below `0x41` contributing
`ord - 0x30` and all others `ord - 0x37`, so `'a'..'f'` give 42..47); only
strings longer than two characters fail, with a negative-shift `ValueError`,
and there is no `MalformedChecksum` condition. -/
theorem c5_decoder_totality :
    (∀ c1 c2 : Fin 256, ∃ v : Int, getChecksumIntegerFromString [c1.val, c2.val] = .ok v) ∧
    (∀ d : Fin 6, getChecksumIntegerFromString [97 + d.val, 48] =
      .ok ((42 + (d.val : Int)) * 16)) ∧
    (∀ c1 c2 c3 : Nat, ∀ rest : List Nat,
      getChecksumIntegerFromString (c1 :: c2 :: c3 :: rest) =
        .error "ValueError: negative shift count") := by
  refine ⟨fun c1 c2 => ⟨_, getChecksum_two c1.val c2.val⟩, by decide, ?_⟩
  intro c1 c2 c3 rest
  unfold getChecksumIntegerFromString
  simp [getChecksumGo]

/-- C8 fails as stated: sending the command `"A"` writes exactly `$A*41`
with no CRLF terminator. -/
theorem c8_counterexample :
    fullCommand [65] = [36, 65, 42, 52, 49] ∧
    fullCommand [65] ≠ [36, 65, 42, 52, 49, 13, 10] := by decide

/-- C8 (amended): for every ASCII command, the bytes written to the
transport are `$` + payload + `*` + HH, where HH is the uppercase,
zero-padded two-hex-digit XOR checksum of the payload, with no line
terminator appended. -/
theorem c8_wire_format (command : List Nat) (h : ∀ b ∈ command, b < 128) :
    fullCommand command =
      [36] ++ command ++ [42] ++
        [hexUpperDigit (calculateChecksumOfString command / 16),
         hexUpperDigit (calculateChecksumOfString command % 16)] := by
  have hcs : calculateChecksumOfString command < 256 := by
    have := checksum_lt_128 command h; omega
  have hfmt : format02X (calculateChecksumOfString command) =
      [hexUpperDigit (calculateChecksumOfString command / 16),
       hexUpperDigit (calculateChecksumOfString command % 16)] := format02X_eval ⟨_, hcs⟩
  unfold fullCommand
  rw [hfmt]

/-- Closed instance of `c8_wire_format` at the command `"C"`. -/
theorem c8_wire_format_witness :
    fullCommand [67] = [36] ++ [67] ++ [42] ++
      [hexUpperDigit (calculateChecksumOfString [67] / 16),
       hexUpperDigit (calculateChecksumOfString [67] % 16)] :=
  c8_wire_format [67] (by decide)

/-! ### Receive loop -/

theorem rx_step_end (cbP cbE : CbSlot) (rest : List (List Nat)) :
    receiveVoltammetryPoints cbP cbE (msgEND :: rest) = (onVoltammetryEnd cbE, .finished) := by
  simp [receiveVoltammetryPoints]

theorem rx_step_err (cbP cbE : CbSlot) (m : List Nat) (rest : List (List Nat))
    (hEnd : m ≠ msgEND) (hErr : pyDropLast 4 m = strERR) :
    receiveVoltammetryPoints cbP cbE (m :: rest) =
      ([], .raised "An error ocurred during the voltammetry.") := by
  simp [receiveVoltammetryPoints, hEnd, hErr]

theorem rx_step_point (cbP cbE : CbSlot) (m : List Nat) (rest : List (List Nat))
    (v c : ℚ) (hEnd : m ≠ msgEND) (hErr : pyDropLast 4 m ≠ strERR)
    (hpt : parsePoint m = some (v, c)) :
    receiveVoltammetryPoints cbP cbE (m :: rest) =
      (onVoltammetryPoint cbP v c ++ (receiveVoltammetryPoints cbP cbE rest).1,
       (receiveVoltammetryPoints cbP cbE rest).2) := by
  unfold parsePoint at hpt
  simp only [receiveVoltammetryPoints, if_neg hEnd, if_neg hErr]
  cases hsplit : pySplit 44 (m.drop 4) with
  | nil => rw [hsplit] at hpt; simp at hpt
  | cons f0 tl =>
    cases tl with
    | nil => rw [hsplit] at hpt; simp at hpt
    | cons f1 t2 =>
      rw [hsplit] at hpt
      cases hv : pyFloat f0 with
      | none => simp [hv] at hpt
      | some v2 =>
        cases hc : pyFloat f1 with
        | none => simp [hv, hc] at hpt
        | some c2 =>
          simp only [hv, hc, Option.some.injEq, Prod.mk.injEq] at hpt
          obtain ⟨hv2, hc2⟩ := hpt
          subst hv2; subst hc2
          simp [hsplit, hv, hc]

theorem rx_points_run (pre tail : List (List Nat))
    (h : ∀ m ∈ pre, m ≠ msgEND ∧ pyDropLast 4 m ≠ strERR ∧ (parsePoint m).isSome) :
    receiveVoltammetryPoints cbOn cbOn (pre ++ tail) =
      ((pre.filterMap fun m => (parsePoint m).map fun vc => CbCall.onPoint vc.1 vc.2) ++
        (receiveVoltammetryPoints cbOn cbOn tail).1,
       (receiveVoltammetryPoints cbOn cbOn tail).2) := by
  induction pre with
  | nil => simp
  | cons m t ih =>
    have hm := h m (List.mem_cons_self m t)
    obtain ⟨⟨v, c⟩, hvc⟩ := Option.isSome_iff_exists.mp hm.2.2
    rw [List.cons_append, rx_step_point cbOn cbOn m _ v c hm.1 hm.2.1 hvc,
      ih fun m2 hm2 => h m2 (List.mem_cons_of_mem m hm2)]
    simp [onVoltammetryPoint, cbOn, hvc]

/-- C3: when a `"MSG,END"` payload arrives during streaming (after any run of
well-formed data points), the receive loop invokes `onEnd`, terminates with
the finished outcome, `onEnd` is invoked exactly once, and no call of any
kind (in particular no `onPoint`) happens after it. -/
theorem c3_end_terminates (pre post : List (List Nat))
    (h : ∀ m ∈ pre, m ≠ msgEND ∧ pyDropLast 4 m ≠ strERR ∧ (parsePoint m).isSome) :
    receiveVoltammetryPoints cbOn cbOn (pre ++ msgEND :: post) =
      ((pre.filterMap fun m => (parsePoint m).map fun vc => CbCall.onPoint vc.1 vc.2) ++
        [CbCall.onEnd], .finished) ∧
    (receiveVoltammetryPoints cbOn cbOn (pre ++ msgEND :: post)).1.count CbCall.onEnd = 1 ∧
    (receiveVoltammetryPoints cbOn cbOn (pre ++ msgEND :: post)).1.getLast? =
      some CbCall.onEnd := by
  have hmain : receiveVoltammetryPoints cbOn cbOn (pre ++ msgEND :: post) =
      ((pre.filterMap fun m => (parsePoint m).map fun vc => CbCall.onPoint vc.1 vc.2) ++
        [CbCall.onEnd], .finished) := by
    rw [rx_points_run pre (msgEND :: post) h, rx_step_end]
    simp [onVoltammetryEnd, cbOn]
  refine ⟨hmain, ?_, ?_⟩
  · rw [hmain]
    have hzero : (pre.filterMap fun m =>
        (parsePoint m).map fun vc => CbCall.onPoint vc.1 vc.2).count CbCall.onEnd = 0 := by
      rw [List.count_eq_zero]
      intro hmem
      obtain ⟨m, _, hsome⟩ := List.mem_filterMap.mp hmem
      cases hopt : parsePoint m <;> rw [hopt] at hsome <;> simp at hsome
    simp [List.count_append, hzero, List.count_cons_self]
  · rw [hmain]
    exact List.getLast?_concat _

/-- C2 is contradicted by the code: the checksum-valid streaming payload
`"ERR,1.5,2.5"` begins with `"ERR,"`, yet `receiveVoltammetryPoints` parses
it as a data point and invokes `onPoint(1.5, 2.5)` without raising, because
the guard compares `message[:-4]` (here `"ERR,1.5"`) with `"ERR"` instead of
checking the prefix; only seven-character payloads such as `"ERR,123"` hit
the error branch. -/
theorem c2_err_payload_parsed_as_point :
    receiveVoltammetryPoints cbOn cbOn [[69, 82, 82, 44, 49, 46, 53, 44, 50, 46, 53]] =
      ([CbCall.onPoint (3 / 2) (5 / 2)], .pending) ∧
    receiveVoltammetryPoints cbOn cbOn [[69, 82, 82, 44, 49, 50, 51]] =
      ([], .raised "An error ocurred during the voltammetry.") := by
  constructor
  · have heval :
        receiveVoltammetryPoints cbOn cbOn [[69, 82, 82, 44, 49, 46, 53, 44, 50, 46, 53]] =
          ([CbCall.onPoint (mkRat 15 10) (mkRat 25 10)], .pending) := by decide
    have h1 : (mkRat 15 10 : ℚ) = 3 / 2 := by rw [Rat.mkRat_eq_div]; norm_num
    have h2 : (mkRat 25 10 : ℚ) = 5 / 2 := by rw [Rat.mkRat_eq_div]; norm_num
    rw [heval, h1, h2]
  · decide

/-- C9: a checksum-valid streaming payload that is neither `"MSG,END"` nor
matched by the error branch has its first four characters stripped; when the
remainder splits on commas into exactly two fields that both parse as
numbers, they are delivered through `onPoint` as `(voltage, current)`; in
particular the payload `"CVW,1.5,-0.25"` yields the point `(1.5, -0.25)`. -/
theorem c9_point_delivery :
    (∀ (m : List Nat) (rest : List (List Nat)) (f0 f1 : List Nat) (v c : ℚ),
      m ≠ msgEND → pyDropLast 4 m ≠ strERR →
      pySplit 44 (m.drop 4) = [f0, f1] → pyFloat f0 = some v → pyFloat f1 = some c →
      receiveVoltammetryPoints cbOn cbOn (m :: rest) =
        (CbCall.onPoint v c :: (receiveVoltammetryPoints cbOn cbOn rest).1,
         (receiveVoltammetryPoints cbOn cbOn rest).2)) ∧
    receiveVoltammetryPoints cbOn cbOn
        [[67, 86, 87, 44, 49, 46, 53, 44, 45, 48, 46, 50, 53]] =
      ([CbCall.onPoint (3 / 2) (-(1 / 4))], .pending) := by
  constructor
  · intro m rest f0 f1 v c hEnd hErr hsplit hv hc
    have hpt : parsePoint m = some (v, c) := by
      unfold parsePoint
      rw [hsplit]
      simp [hv, hc]
    rw [rx_step_point cbOn cbOn m rest v c hEnd hErr hpt]
    simp [onVoltammetryPoint, cbOn]
  · have heval : receiveVoltammetryPoints cbOn cbOn
        [[67, 86, 87, 44, 49, 46, 53, 44, 45, 48, 46, 50, 53]] =
          ([CbCall.onPoint (mkRat 15 10) (-(mkRat 25 100))], .pending) := by decide
    have h1 : (mkRat 15 10 : ℚ) = 3 / 2 := by rw [Rat.mkRat_eq_div]; norm_num
    have h2 : (-(mkRat 25 100) : ℚ) = -(1 / 4) := by rw [Rat.mkRat_eq_div]; norm_num
    rw [heval, h1, h2]

/-- Closed instance of `c9_point_delivery`: the payload `"CVW,1.5,-0.25"`
is delivered as a point. -/
theorem c9_point_delivery_witness :
    receiveVoltammetryPoints cbOn cbOn
        [[67, 86, 87, 44, 49, 46, 53, 44, 45, 48, 46, 50, 53]] =
      (CbCall.onPoint (mkRat 15 10) (-(mkRat 25 100)) ::
        (receiveVoltammetryPoints cbOn cbOn []).1,
       (receiveVoltammetryPoints cbOn cbOn []).2) :=
  c9_point_delivery.1 [67, 86, 87, 44, 49, 46, 53, 44, 45, 48, 46, 50, 53] []
    [49, 46, 53] [45, 48, 46, 50, 53] (mkRat 15 10) (-(mkRat 25 100))
    (by decide) (by decide) (by decide) (by decide) (by decide)

theorem rx_slots (cbP cbE : CbSlot) (msgs : List (List Nat)) :
    (receiveVoltammetryPoints cbP cbE msgs).2 =
      (receiveVoltammetryPoints cbOn cbOn msgs).2 ∧
    (receiveVoltammetryPoints cbP cbE msgs).1 =
      (receiveVoltammetryPoints cbOn cbOn msgs).1.filter fun e =>
        match e with
        | CbCall.onPoint _ _ => cbP.truthy && cbP.callable
        | CbCall.onEnd => cbE.truthy && cbE.callable := by
  induction msgs with
  | nil => simp [receiveVoltammetryPoints]
  | cons m rest ih =>
    simp only [receiveVoltammetryPoints]
    by_cases h1 : m = msgEND
    · rw [if_pos h1, if_pos h1]
      refine ⟨rfl, ?_⟩
      simp only [onVoltammetryEnd, cbOn]
      cases hT : cbE.truthy <;> cases hC : cbE.callable <;> simp [List.filter]
    · rw [if_neg h1, if_neg h1]
      by_cases h2 : pyDropLast 4 m = strERR
      · rw [if_pos h2, if_pos h2]
        exact ⟨rfl, by simp⟩
      · rw [if_neg h2, if_neg h2]
        cases hh : (pySplit 44 (m.drop 4)).head? with
        | none => exact ⟨rfl, by simp⟩
        | some f0 =>
          dsimp only
          cases hv : pyFloat f0 with
          | none => exact ⟨rfl, by simp⟩
          | some voltage =>
            dsimp only
            cases hg : (pySplit 44 (m.drop 4))[1]? with
            | none => exact ⟨rfl, by simp⟩
            | some f1 =>
              dsimp only
              cases hc : pyFloat f1 with
              | none => exact ⟨rfl, by simp⟩
              | some current =>
                dsimp only
                refine ⟨ih.1, ?_⟩
                rw [ih.2]
                simp only [onVoltammetryPoint, cbOn, List.filter_append]
                cases hT : cbP.truthy <;> cases hC : cbP.callable <;> simp [List.filter]

/-- C10: when the point and end callback slots are `None` or not callable,
the delivery helpers invoke nothing, so the receive loop performs no
callback invocation at all, and its outcome (termination, raising, or still
reading) is exactly the one it has with callbacks installed: omitting the
callbacks is a safe mode that only drops the notifications. -/
theorem c10_no_callbacks_is_silent (cbP cbE : CbSlot) (msgs : List (List Nat))
    (hP : cbP.truthy = false ∨ cbP.callable = false)
    (hE : cbE.truthy = false ∨ cbE.callable = false) :
    (receiveVoltammetryPoints cbP cbE msgs).1 = [] ∧
    (receiveVoltammetryPoints cbP cbE msgs).2 =
      (receiveVoltammetryPoints cbOn cbOn msgs).2 := by
  have h := rx_slots cbP cbE msgs
  refine ⟨?_, h.1⟩
  rw [h.2]
  apply List.filter_eq_nil_iff.mpr
  intro e _
  cases e with
  | onPoint v c => rcases hP with hp1 | hp1 <;> simp [hp1]
  | onEnd => rcases hE with he1 | he1 <;> simp [he1]

/-- Closed instance of `c10_no_callbacks_is_silent` with both slots `None`
and a stream of one point and the end marker. -/
theorem c10_no_callbacks_witness :
    (receiveVoltammetryPoints ⟨false, false⟩ ⟨false, false⟩
        [[67, 86, 87, 44, 49, 46, 53, 44, 50, 46, 53], msgEND]).1 = [] ∧
    (receiveVoltammetryPoints ⟨false, false⟩ ⟨false, false⟩
        [[67, 86, 87, 44, 49, 46, 53, 44, 50, 46, 53], msgEND]).2 =
      (receiveVoltammetryPoints cbOn cbOn
        [[67, 86, 87, 44, 49, 46, 53, 44, 50, 46, 53], msgEND]).2 :=
  c10_no_callbacks_is_silent ⟨false, false⟩ ⟨false, false⟩
    [[67, 86, 87, 44, 49, 46, 53, 44, 50, 46, 53], msgEND] (Or.inl rfl) (Or.inl rfl)

/-- C7: construction of the session succeeds exactly when the serial port
opens, the first line is read, and the decoded first message is
`"MSG,RDY"`; a transport failure, a corrupted frame, or any other payload
raises instead. -/
theorem c7_init_succeeds_iff_ready (firstRead : InitRead) :
    openAFEInit firstRead = .ok () ↔
      ∃ raw, firstRead = .line raw ∧ waitForMessage raw = .ok msgRDY := by
  cases firstRead with
  | openFail => simp [openAFEInit]
  | readFail => simp [openAFEInit]
  | line raw =>
    simp only [openAFEInit]
    cases hw : waitForMessage raw with
    | error e => simp [hw]
    | ok m =>
      by_cases hm : m = msgRDY
      · subst hm
        simp [pyEq, isValidMessage, hw]
      · simp [pyEq, isValidMessage, hm, hw]

/-- Closed instance of `c3_end_terminates`: one data point followed by
`"MSG,END"`. -/
theorem c3_end_terminates_witness :
    receiveVoltammetryPoints cbOn cbOn
        ([[67, 86, 87, 44, 49, 46, 53, 44, 50, 46, 53]] ++ msgEND :: []) =
      (([[67, 86, 87, 44, 49, 46, 53, 44, 50, 46, 53]].filterMap fun m =>
          (parsePoint m).map fun vc => CbCall.onPoint vc.1 vc.2) ++
        [CbCall.onEnd], .finished) ∧
    (receiveVoltammetryPoints cbOn cbOn
        ([[67, 86, 87, 44, 49, 46, 53, 44, 50, 46, 53]] ++ msgEND :: [])).1.count
      CbCall.onEnd = 1 ∧
    (receiveVoltammetryPoints cbOn cbOn
        ([[67, 86, 87, 44, 49, 46, 53, 44, 50, 46, 53]] ++ msgEND :: [])).1.getLast? =
      some CbCall.onEnd :=
  c3_end_terminates [[67, 86, 87, 44, 49, 46, 53, 44, 50, 46, 53]] [] (by decide)
